import Mathlib

/-!
Shallow embedding of the session/lock core of `backend-fastapi`
(`app/services/session.py`, with the claim/availability flow of
`app/api/v1/access.py` and the masking helper of `app/api/v1/robot.py`).

Modelling conventions:
* a Python `str` is a `List Char` (a sequence of code points); `.lower()` is
  `List.map Char.toLower`;
* a Python `dict` is an association list queried by first-match lookup;
  `d[k] = v` replaces any binding of `k`, `del d[k]` removes it;
* `datetime` values are `Int` seconds since an arbitrary epoch;
  `timedelta(minutes=m)` is `60 * m` seconds; `datetime.utcnow()` becomes an
  explicit `now : Int` argument threaded through every operation (the clock
  is injected, as the spec's §6 requires for testability);
* the module-level mutable globals `_sessions` / `_robot_locks` become an
  explicit `RegState` record passed in and returned by every operation.
-/

namespace Tumbller

/-- Python string: a sequence of code points. -/
abbrev Str := List Char

/-- Python `str.lower()` (Lean's `Char.toLower`, like the ASCII fast path,
only maps basic latin letters). -/
def pyLower (s : Str) : Str := s.map Char.toLower

/-- Python dict lookup `d.get(k)` over an association list (first match). -/
def dget {α : Type} : List (Str × α) → Str → Option α
  | [], _ => none
  | p :: rest, k => if p.1 = k then some p.2 else dget rest k

/-- Python `del d[k]`: drop the binding of `k`. -/
def ddel {α : Type} (l : List (Str × α)) (k : Str) : List (Str × α) :=
  l.filter (fun p => decide (p.1 ≠ k))

/-- Python `d[k] = v`: bind `k` to `v`, removing any previous binding. -/
def dset {α : Type} (l : List (Str × α)) (k : Str) (v : α) : List (Str × α) :=
  (k, v) :: ddel l k

/-- Dataclass `SessionData` of `app/services/session.py`: internal session
data storage. -/
structure SessionData where
  wallet_address : Str
  robot_host : Str
  created_at : Int
  expires_at : Int
  payment_tx : Option Str
deriving DecidableEq, Repr

/-- The two module-level dicts of `app/services/session.py`:
`_sessions` (key: wallet address, lowercase) and `_robot_locks`
(key: robot mdns, value: wallet address). -/
structure RegState where
  sessions : List (Str × SessionData)
  robot_locks : List (Str × Str)
deriving DecidableEq, Repr

/-- The initial state: both module-level dicts start empty. -/
def initState : RegState := ⟨[], []⟩

/-- Function `create_session` of `app/services/session.py`. Creates a new
access session binding wallet to a specific robot. `dur_minutes` stands for
`get_settings().session_duration_minutes`. -/
def create_session (now dur_minutes : Int) (wallet_address robot_host : Str)
    (payment_tx : Option Str) (st : RegState) : SessionData × RegState :=
  let expires_at : Int := now + 60 * dur_minutes
  let wallet_lower := pyLower wallet_address
  let robot_lower := pyLower robot_host
  -- Release any previous robot lock for this wallet
  let st1 : RegState :=
    match dget st.sessions wallet_lower with
    | some old_session =>
      match dget st.robot_locks old_session.robot_host with
      | some h =>
        if h = wallet_lower then
          { st with robot_locks := ddel st.robot_locks old_session.robot_host }
        else st
      | none => st
    | none => st
  let session : SessionData :=
    ⟨wallet_lower, robot_lower, now, expires_at, payment_tx⟩
  (session,
    { sessions := dset st1.sessions wallet_lower session,
      robot_locks := dset st1.robot_locks robot_lower wallet_lower })

/-- Function `_cleanup_session` of `app/services/session.py`. Removes the
session and releases the robot lock. -/
def cleanup_session (wallet_address : Str) (st : RegState) : RegState :=
  let wallet_lower := pyLower wallet_address
  match dget st.sessions wallet_lower with
  | some session =>
    let locks :=
      match dget st.robot_locks session.robot_host with
      | some h =>
        if h = wallet_lower then ddel st.robot_locks session.robot_host
        else st.robot_locks
      | none => st.robot_locks
    { sessions := ddel st.sessions wallet_lower, robot_locks := locks }
  | none => st

/-- Function `get_session` of `app/services/session.py`. Gets the active
session for a wallet address, lazily cleaning up an expired one. -/
def get_session (now : Int) (wallet_address : Str) (st : RegState) :
    Option SessionData × RegState :=
  let wallet_lower := pyLower wallet_address
  match dget st.sessions wallet_lower with
  | none => (none, st)
  | some session =>
    if now > session.expires_at then (none, cleanup_session wallet_lower st)
    else (some session, st)

/-- Function `has_valid_session` of `app/services/session.py`. -/
def has_valid_session (now : Int) (wallet_address : Str) (st : RegState) :
    Bool × RegState :=
  let r := get_session now wallet_address st
  (r.1.isSome, r.2)

/-- Function `get_remaining_seconds` of `app/services/session.py`. At the
integer-second granularity of the model, `int(...)` truncation is the
identity. -/
def get_remaining_seconds (now : Int) (wallet_address : Str) (st : RegState) :
    Int × RegState :=
  match get_session now wallet_address st with
  | (none, st1) => (0, st1)
  | (some session, st1) => (max 0 (session.expires_at - now), st1)

/-- Function `is_robot_available` of `app/services/session.py`. Checks if a
robot is available (not locked by a wallet with a valid session). -/
def is_robot_available (now : Int) (robot_host : Str) (st : RegState) :
    Bool × RegState :=
  let robot_lower := pyLower robot_host
  match dget st.robot_locks robot_lower with
  | none => (true, st)
  | some lock_holder =>
    match get_session now lock_holder st with
    | (none, st1) => (true, st1)
    | (some _, st1) => (false, st1)

/-- Function `get_robot_lock_holder` of `app/services/session.py`. Gets the
wallet address that currently has the robot locked, if its session is still
valid. -/
def get_robot_lock_holder (now : Int) (robot_host : Str) (st : RegState) :
    Option Str × RegState :=
  let robot_lower := pyLower robot_host
  match dget st.robot_locks robot_lower with
  | none => (none, st)
  | some lock_holder =>
    match get_session now lock_holder st with
    | (none, st1) => (none, st1)
    | (some _, st1) => (some lock_holder, st1)

/-- Function `get_session_robot` of `app/services/session.py`. Gets the robot
host bound to this wallet's session. -/
def get_session_robot (now : Int) (wallet_address : Str) (st : RegState) :
    Option Str × RegState :=
  match get_session now wallet_address st with
  | (none, st1) => (none, st1)
  | (some session, st1) => (some session.robot_host, st1)

/-- Function `_mask_wallet` of `app/api/v1/robot.py`: mask a wallet address
for privacy (show first 6 and last 4 chars). `wallet[:6]` is `take 6` and
`wallet[-4:]` is `drop (length - 4)` (the length exceeds 10 on that branch). -/
def mask_wallet (wallet : Str) : Str :=
  if wallet.length ≤ 10 then wallet
  else wallet.take 6 ++ "...".toList ++ wallet.drop (wallet.length - 4)

/-- Pydantic model `SessionResponse` of `app/schemas/session.py`; the three
optional fields default to `None`. -/
structure SessionResponse where
  active : Bool
  robot_host : Option Str
  expires_at : Option Int
  remaining_seconds : Option Int
deriving DecidableEq, Repr

/-- Outcome of `purchase_access` in `app/api/v1/access.py`: HTTP 503 when the
robot is offline, HTTP 409 (`ResourceBusy`) when it is in use, or a granted
session. -/
inductive PurchaseResult where
  | offline
  | busy
  | granted (session : SessionData)
deriving DecidableEq, Repr

/-- Endpoint `purchase_access` of `app/api/v1/access.py` (the claim
operation): check the robot is online, check availability, then create the
session. `motor_online` stands for the result of the external liveness call
`robot_service.check_motor_online`; `payment_tx` for
`request.state.x402_tx_hash`. -/
def purchase_access (motor_online : Bool) (now dur_minutes : Int)
    (x_wallet_address robot_host : Str) (payment_tx : Option Str)
    (st : RegState) : PurchaseResult × RegState :=
  if motor_online = false then (.offline, st)
  else
    let r1 := is_robot_available now robot_host st
    if r1.1 = false then (.busy, r1.2)
    else
      let r2 := create_session now dur_minutes x_wallet_address robot_host
        payment_tx r1.2
      (.granted r2.1, r2.2)

/-- Endpoint `check_access` of `app/api/v1/access.py` (`GET /status`): the
session status for a wallet. A missing or empty `x-wallet-address` header is
falsy in Python, hence the empty-string test. -/
def check_access (payment_enabled : Bool) (now : Int)
    (x_wallet_address : Option Str) (st : RegState) :
    SessionResponse × RegState :=
  match x_wallet_address with
  | none => (⟨false, none, none, none⟩, st)
  | some w =>
    if w = [] then (⟨false, none, none, none⟩, st)
    else if payment_enabled = false then
      match get_session now w st with
      | (some session, st1) =>
        let r := get_remaining_seconds now w st1
        (⟨true, some session.robot_host, some session.expires_at, some r.1⟩,
          r.2)
      | (none, st1) => (⟨false, none, none, none⟩, st1)
    else
      match get_session now w st with
      | (none, st1) => (⟨false, none, none, none⟩, st1)
      | (some session, st1) =>
        let r := get_remaining_seconds now w st1
        (⟨true, some session.robot_host, some session.expires_at, some r.1⟩,
          r.2)

/-- The `locked_by` field computed by endpoint `get_robot_status` of
`app/api/v1/robot.py`: `None` when the robot is available, else the masked
holder (Python treats an empty-string holder as falsy). -/
def status_locked_by (now : Int) (robot_host : Str) (st : RegState) :
    Option Str × RegState :=
  let r1 := is_robot_available now robot_host st
  if r1.1 then (none, r1.2)
  else
    let r2 := get_robot_lock_holder now robot_host r1.2
    match r2.1 with
    | some holder =>
      if holder = [] then (none, r2.2) else (some (mask_wallet holder), r2.2)
    | none => (none, r2.2)

/-- Every robot lock points at a wallet whose stored session is bound to
exactly that robot (no dangling and no mismatched locks). -/
def LocksConsistent (st : RegState) : Prop :=
  ∀ r w, dget st.robot_locks r = some w →
    ∃ s, dget st.sessions w = some s ∧ s.robot_host = r

/-- Every stored session owns the lock of its robot: the resource-keyed map
inverts the holder-keyed map. -/
def SessionsLocked (st : RegState) : Prop :=
  ∀ w s, dget st.sessions w = some s → dget st.robot_locks s.robot_host = some w

/-- Lock values are normalized wallet addresses (lowering is the identity on
them), as `create_session` always stores `wallet_lower`. -/
def LocksNormalized (st : RegState) : Prop :=
  ∀ r w, dget st.robot_locks r = some w → pyLower w = w

/-- The state after a read operation: unchanged, or an expired session was
lazily cleaned up. -/
def ReadPost (st st' : RegState) : Prop :=
  st' = st ∨ ∃ k, st' = cleanup_session k st

/-- The session value returned by `create_session`. -/
def newSession (now dur_minutes : Int) (wallet_address robot_host : Str)
    (payment_tx : Option Str) : SessionData :=
  ⟨pyLower wallet_address, pyLower robot_host, now, now + 60 * dur_minutes,
    payment_tx⟩

/-- The inductive invariant of the guarded (availability-checked) system:
the two maps are mutually inverse and lock values are normalized. -/
def GoodState (st : RegState) : Prop :=
  LocksConsistent st ∧ SessionsLocked st ∧ LocksNormalized st

/-- States reachable through the raw registry operations, exactly as the
service module exposes them: `create_session` (the claim),
`_cleanup_session` (the release) and the read operations, from empty maps.
Every step takes its own clock value and arbitrary raw identifiers. -/
inductive Reachable : RegState → Prop where
  | init : Reachable initState
  | create (now dur_minutes : Int) (w r : Str) (tx : Option Str)
      {st : RegState} : Reachable st →
      Reachable (create_session now dur_minutes w r tx st).2
  | cleanup (w : Str) {st : RegState} : Reachable st →
      Reachable (cleanup_session w st)
  | read_get (now : Int) (w : Str) {st : RegState} : Reachable st →
      Reachable (get_session now w st).2
  | read_valid (now : Int) (w : Str) {st : RegState} : Reachable st →
      Reachable (has_valid_session now w st).2
  | read_remaining (now : Int) (w : Str) {st : RegState} : Reachable st →
      Reachable (get_remaining_seconds now w st).2
  | read_avail (now : Int) (r : Str) {st : RegState} : Reachable st →
      Reachable (is_robot_available now r st).2
  | read_holder (now : Int) (r : Str) {st : RegState} : Reachable st →
      Reachable (get_robot_lock_holder now r st).2
  | read_robot (now : Int) (w : Str) {st : RegState} : Reachable st →
      Reachable (get_session_robot now w st).2

/-- States reachable when every claim goes through the endpoint
`purchase_access` (availability check before `create_session`), together
with release and the read operations. -/
inductive ReachableP : RegState → Prop where
  | init : ReachableP initState
  | purchase (motor_online : Bool) (now dur_minutes : Int) (w r : Str)
      (tx : Option Str) {st : RegState} : ReachableP st →
      ReachableP (purchase_access motor_online now dur_minutes w r tx st).2
  | cleanup (w : Str) {st : RegState} : ReachableP st →
      ReachableP (cleanup_session w st)
  | read_get (now : Int) (w : Str) {st : RegState} : ReachableP st →
      ReachableP (get_session now w st).2
  | read_valid (now : Int) (w : Str) {st : RegState} : ReachableP st →
      ReachableP (has_valid_session now w st).2
  | read_remaining (now : Int) (w : Str) {st : RegState} : ReachableP st →
      ReachableP (get_remaining_seconds now w st).2
  | read_avail (now : Int) (r : Str) {st : RegState} : ReachableP st →
      ReachableP (is_robot_available now r st).2
  | read_holder (now : Int) (r : Str) {st : RegState} : ReachableP st →
      ReachableP (get_robot_lock_holder now r st).2
  | read_robot (now : Int) (w : Str) {st : RegState} : ReachableP st →
      ReachableP (get_session_robot now w st).2
  | read_status (now : Int) (r : Str) {st : RegState} : ReachableP st →
      ReachableP (status_locked_by now r st).2
  | read_access (pe : Bool) (now : Int) (w : Option Str) {st : RegState} :
      ReachableP st → ReachableP (check_access pe now w st).2

/-- Example state: wallet `a` claims robot `r` at time 0 with a 10-minute
session (raw registry claim). -/
def stA : RegState := (create_session 0 10 ['a'] ['r'] none initState).2

/-- Example state: wallet `b` also raw-claims robot `r` at time 0, while
wallet `a` still holds an unexpired session on `r`. -/
def stBad : RegState := (create_session 0 10 ['b'] ['r'] none stA).2

/-- Example state: wallet `a` claims robot `r` through the guarded purchase
endpoint. -/
def stP : RegState := (purchase_access true 0 10 ['a'] ['r'] none initState).2

/-- Auxiliary: `Char.ofNat` of a scalar below the surrogate range decodes
back to the same `Nat`. -/
theorem char_toNat_ofNat {n : Nat} (h : n < 55296) : (Char.ofNat n).toNat = n := by
  rw [Char.ofNat, dif_pos (Or.inl h)]
  rfl

/-- Lowering a character twice is the same as lowering it once. -/
theorem char_toLower_toLower (c : Char) : c.toLower.toLower = c.toLower := by
  unfold Char.toLower
  by_cases h : c.toNat ≥ 65 ∧ c.toNat ≤ 90
  · rw [if_pos h]
    have h1 : (Char.ofNat (c.toNat + 32)).toNat = c.toNat + 32 :=
      char_toNat_ofNat (by omega)
    rw [if_neg (by rw [h1]; omega)]
  · rw [if_neg h, if_neg h]

/-- Lowering a Python string twice is the same as lowering it once. -/
theorem pyLower_pyLower (s : Str) : pyLower (pyLower s) = pyLower s := by
  simp only [pyLower, List.map_map, Function.comp]
  exact List.map_congr_left fun c _ => char_toLower_toLower c

theorem dget_ddel {α : Type} (l : List (Str × α)) (k k' : Str) :
    dget (ddel l k) k' = if k' = k then none else dget l k' := by
  induction l with
  | nil => simp [ddel, dget]
  | cons p rest ih =>
    by_cases hpk : p.1 = k
    · rw [ddel, List.filter_cons, if_neg (by simp [hpk])]
      rw [ddel] at ih
      rw [ih, dget]
      by_cases hk' : k' = k
      · rw [if_pos hk', if_pos hk']
      · rw [if_neg hk', if_neg hk',
          if_neg (show ¬p.1 = k' by rw [hpk]; exact fun hh => hk' hh.symm)]
    · rw [ddel, List.filter_cons, if_pos (by simp [hpk])]
      rw [dget, dget]
      by_cases hpk' : p.1 = k'
      · rw [if_pos hpk', if_pos hpk',
          if_neg (fun hh : k' = k => hpk (hpk'.trans hh))]
      · rw [if_neg hpk', if_neg hpk']
        rw [ddel] at ih
        rw [ih]

theorem dget_dset {α : Type} (l : List (Str × α)) (k k' : Str) (v : α) :
    dget (dset l k v) k' = if k' = k then some v else dget l k' := by
  rw [dset, dget]
  by_cases hk : k = k'
  · rw [if_pos hk, if_pos hk.symm]
  · rw [if_neg hk, if_neg (fun hh : k' = k => hk hh.symm), dget_ddel,
      if_neg (fun hh : k' = k => hk hh.symm)]

theorem readPost_get_session (now : Int) (w : Str) (st : RegState) :
    ReadPost st (get_session now w st).2 := by
  unfold get_session ReadPost
  cases hs : dget st.sessions (pyLower w) with
  | none => simp [hs]
  | some s =>
    simp only [hs]
    by_cases he : now > s.expires_at
    · rw [if_pos he]
      exact Or.inr ⟨pyLower w, rfl⟩
    · rw [if_neg he]
      exact Or.inl rfl

theorem readPost_has_valid_session (now : Int) (w : Str) (st : RegState) :
    ReadPost st (has_valid_session now w st).2 :=
  readPost_get_session now w st

theorem readPost_get_remaining_seconds (now : Int) (w : Str) (st : RegState) :
    ReadPost st (get_remaining_seconds now w st).2 := by
  unfold get_remaining_seconds
  have h := readPost_get_session now w st
  cases hg : get_session now w st with
  | mk a st1 =>
    rw [hg] at h
    cases a <;> simpa using h

theorem readPost_get_session_robot (now : Int) (w : Str) (st : RegState) :
    ReadPost st (get_session_robot now w st).2 := by
  unfold get_session_robot
  have h := readPost_get_session now w st
  cases hg : get_session now w st with
  | mk a st1 =>
    rw [hg] at h
    cases a <;> simpa using h

theorem readPost_is_robot_available (now : Int) (r : Str) (st : RegState) :
    ReadPost st (is_robot_available now r st).2 := by
  unfold is_robot_available
  cases hl : dget st.robot_locks (pyLower r) with
  | none => simp only [hl]; exact Or.inl rfl
  | some h =>
    simp only [hl]
    have hp := readPost_get_session now h st
    cases hg : get_session now h st with
    | mk a st1 =>
      rw [hg] at hp
      cases a <;> simpa using hp

theorem readPost_get_robot_lock_holder (now : Int) (r : Str) (st : RegState) :
    ReadPost st (get_robot_lock_holder now r st).2 := by
  unfold get_robot_lock_holder
  cases hl : dget st.robot_locks (pyLower r) with
  | none => simp only [hl]; exact Or.inl rfl
  | some h =>
    simp only [hl]
    have hp := readPost_get_session now h st
    cases hg : get_session now h st with
    | mk a st1 =>
      rw [hg] at hp
      cases a <;> simpa using hp

theorem cleanup_eq_of_no_session {k : Str} {st : RegState}
    (hs : dget st.sessions (pyLower k) = none) : cleanup_session k st = st := by
  unfold cleanup_session
  simp only [hs]

theorem cleanup_eq_of_lock_mine {k : Str} {st : RegState} {s0 : SessionData}
    (hs : dget st.sessions (pyLower k) = some s0)
    (hl : dget st.robot_locks s0.robot_host = some (pyLower k)) :
    cleanup_session k st =
      ⟨ddel st.sessions (pyLower k), ddel st.robot_locks s0.robot_host⟩ := by
  unfold cleanup_session
  simp [hs, hl]

theorem cleanup_eq_of_lock_other {k : Str} {st : RegState} {s0 : SessionData}
    {h : Str} (hs : dget st.sessions (pyLower k) = some s0)
    (hl : dget st.robot_locks s0.robot_host = some h) (hh : h ≠ pyLower k) :
    cleanup_session k st = ⟨ddel st.sessions (pyLower k), st.robot_locks⟩ := by
  unfold cleanup_session
  simp only [hs, hl, if_neg hh]

theorem cleanup_eq_of_no_lock {k : Str} {st : RegState} {s0 : SessionData}
    (hs : dget st.sessions (pyLower k) = some s0)
    (hl : dget st.robot_locks s0.robot_host = none) :
    cleanup_session k st = ⟨ddel st.sessions (pyLower k), st.robot_locks⟩ := by
  unfold cleanup_session
  simp only [hs, hl]

/-- Lookup in the session map after a cleanup: the cleaned wallet is gone,
everything else is untouched. -/
theorem cleanup_dget_sessions (k : Str) (st : RegState) (w : Str) :
    dget (cleanup_session k st).sessions w =
      if w = pyLower k then none else dget st.sessions w := by
  cases hs : dget st.sessions (pyLower k) with
  | none =>
    rw [cleanup_eq_of_no_session hs]
    by_cases hw : w = pyLower k
    · rw [if_pos hw, hw, hs]
    · rw [if_neg hw]
  | some s0 =>
    cases hl : dget st.robot_locks s0.robot_host with
    | none => rw [cleanup_eq_of_no_lock hs hl]; exact dget_ddel _ _ _
    | some h =>
      by_cases hh : h = pyLower k
      · rw [hh] at hl
        rw [cleanup_eq_of_lock_mine hs hl]
        exact dget_ddel _ _ _
      · rw [cleanup_eq_of_lock_other hs hl hh]
        exact dget_ddel _ _ _

/-- A lock binding that survives a cleanup was already there. -/
theorem cleanup_dget_locks_subset {k : Str} {st : RegState} {r w : Str}
    (hrw : dget (cleanup_session k st).robot_locks r = some w) :
    dget st.robot_locks r = some w := by
  cases hs : dget st.sessions (pyLower k) with
  | none => rwa [cleanup_eq_of_no_session hs] at hrw
  | some s0 =>
    cases hl : dget st.robot_locks s0.robot_host with
    | none => rwa [cleanup_eq_of_no_lock hs hl] at hrw
    | some h =>
      by_cases hh : h = pyLower k
      · rw [hh] at hl
        rw [cleanup_eq_of_lock_mine hs hl] at hrw
        simp only [dget_ddel] at hrw
        by_cases hr : r = s0.robot_host
        · rw [if_pos hr] at hrw; cases hrw
        · rwa [if_neg hr] at hrw
      · rwa [cleanup_eq_of_lock_other hs hl hh] at hrw

/-- A lock binding whose holder is not the cleaned wallet survives the
cleanup. -/
theorem cleanup_dget_locks_other {k : Str} {st : RegState} {r w : Str}
    (hrw : dget st.robot_locks r = some w) (hw : w ≠ pyLower k) :
    dget (cleanup_session k st).robot_locks r = some w := by
  cases hs : dget st.sessions (pyLower k) with
  | none => rwa [cleanup_eq_of_no_session hs]
  | some s0 =>
    cases hl : dget st.robot_locks s0.robot_host with
    | none => rwa [cleanup_eq_of_no_lock hs hl]
    | some h =>
      by_cases hh : h = pyLower k
      · rw [hh] at hl
        rw [cleanup_eq_of_lock_mine hs hl]
        simp only [dget_ddel]
        rw [if_neg]
        · exact hrw
        · intro hr
          rw [hr, hl] at hrw
          exact hw (Option.some.inj hrw).symm
      · rwa [cleanup_eq_of_lock_other hs hl hh]

theorem create_fst (now dur_minutes : Int) (w r : Str) (tx : Option Str)
    (st : RegState) :
    (create_session now dur_minutes w r tx st).1 =
      newSession now dur_minutes w r tx := rfl

theorem create_eq_of_no_session {now dur_minutes : Int} {w : Str} (r : Str)
    (tx : Option Str) {st : RegState}
    (hs : dget st.sessions (pyLower w) = none) :
    (create_session now dur_minutes w r tx st).2 =
      ⟨dset st.sessions (pyLower w) (newSession now dur_minutes w r tx),
        dset st.robot_locks (pyLower r) (pyLower w)⟩ := by
  unfold create_session
  simp only [hs]
  rfl

theorem create_eq_of_lock_mine {now dur_minutes : Int} {w : Str} (r : Str)
    (tx : Option Str) {st : RegState} {old : SessionData}
    (hs : dget st.sessions (pyLower w) = some old)
    (hl : dget st.robot_locks old.robot_host = some (pyLower w)) :
    (create_session now dur_minutes w r tx st).2 =
      ⟨dset st.sessions (pyLower w) (newSession now dur_minutes w r tx),
        dset (ddel st.robot_locks old.robot_host) (pyLower r) (pyLower w)⟩ := by
  unfold create_session
  simp [hs, hl]
  rfl

theorem create_eq_of_lock_other {now dur_minutes : Int} {w : Str} (r : Str)
    (tx : Option Str) {st : RegState} {old : SessionData} {h : Str}
    (hs : dget st.sessions (pyLower w) = some old)
    (hl : dget st.robot_locks old.robot_host = some h) (hh : h ≠ pyLower w) :
    (create_session now dur_minutes w r tx st).2 =
      ⟨dset st.sessions (pyLower w) (newSession now dur_minutes w r tx),
        dset st.robot_locks (pyLower r) (pyLower w)⟩ := by
  unfold create_session
  simp only [hs, hl, if_neg hh]
  rfl

theorem create_eq_of_no_lock {now dur_minutes : Int} {w : Str} (r : Str)
    (tx : Option Str) {st : RegState} {old : SessionData}
    (hs : dget st.sessions (pyLower w) = some old)
    (hl : dget st.robot_locks old.robot_host = none) :
    (create_session now dur_minutes w r tx st).2 =
      ⟨dset st.sessions (pyLower w) (newSession now dur_minutes w r tx),
        dset st.robot_locks (pyLower r) (pyLower w)⟩ := by
  unfold create_session
  simp only [hs, hl]
  rfl

/-- Lookup in the session map after `create_session`: the claiming wallet is
bound to the new session, everything else is untouched. -/
theorem create_dget_sessions (now dur_minutes : Int) (w r : Str)
    (tx : Option Str) (st : RegState) (k : Str) :
    dget (create_session now dur_minutes w r tx st).2.sessions k =
      if k = pyLower w then some (newSession now dur_minutes w r tx)
      else dget st.sessions k := by
  cases hs : dget st.sessions (pyLower w) with
  | none => rw [create_eq_of_no_session r tx hs]; exact dget_dset _ _ _ _
  | some old =>
    cases hl : dget st.robot_locks old.robot_host with
    | none => rw [create_eq_of_no_lock r tx hs hl]; exact dget_dset _ _ _ _
    | some h =>
      by_cases hh : h = pyLower w
      · rw [hh] at hl
        rw [create_eq_of_lock_mine r tx hs hl]
        exact dget_dset _ _ _ _
      · rw [create_eq_of_lock_other r tx hs hl hh]
        exact dget_dset _ _ _ _

/-- The new robot's lock after `create_session` names the claiming wallet. -/
theorem create_dget_locks_new (now dur_minutes : Int) (w r : Str)
    (tx : Option Str) (st : RegState) :
    dget (create_session now dur_minutes w r tx st).2.robot_locks (pyLower r) =
      some (pyLower w) := by
  cases hs : dget st.sessions (pyLower w) with
  | none =>
    rw [create_eq_of_no_session r tx hs]
    simp [dget_dset]
  | some old =>
    cases hl : dget st.robot_locks old.robot_host with
    | none =>
      rw [create_eq_of_no_lock r tx hs hl]
      simp [dget_dset]
    | some h =>
      by_cases hh : h = pyLower w
      · rw [hh] at hl
        rw [create_eq_of_lock_mine r tx hs hl]
        simp [dget_dset]
      · rw [create_eq_of_lock_other r tx hs hl hh]
        simp [dget_dset]

/-- A lock binding on another robot that survives `create_session` was
already there. -/
theorem create_dget_locks_subset {now dur_minutes : Int} {w r : Str}
    {tx : Option Str} {st : RegState} {k v : Str} (hk : k ≠ pyLower r)
    (hkv : dget (create_session now dur_minutes w r tx st).2.robot_locks k =
      some v) : dget st.robot_locks k = some v := by
  cases hs : dget st.sessions (pyLower w) with
  | none =>
    rw [create_eq_of_no_session r tx hs] at hkv
    simp only [dget_dset, if_neg hk] at hkv
    exact hkv
  | some old =>
    cases hl : dget st.robot_locks old.robot_host with
    | none =>
      rw [create_eq_of_no_lock r tx hs hl] at hkv
      simp only [dget_dset, if_neg hk] at hkv
      exact hkv
    | some h =>
      by_cases hh : h = pyLower w
      · rw [hh] at hl
        rw [create_eq_of_lock_mine r tx hs hl] at hkv
        simp only [dget_dset, if_neg hk, dget_ddel] at hkv
        by_cases hko : k = old.robot_host
        · rw [if_pos hko] at hkv; cases hkv
        · rwa [if_neg hko] at hkv
      · rw [create_eq_of_lock_other r tx hs hl hh] at hkv
        simp only [dget_dset, if_neg hk] at hkv
        exact hkv

/-- A lock binding on another robot held by another wallet survives
`create_session`. -/
theorem create_dget_locks_keep {now dur_minutes : Int} {w r : Str}
    {tx : Option Str} {st : RegState} {k v : Str} (hk : k ≠ pyLower r)
    (hv : v ≠ pyLower w) (hkv : dget st.robot_locks k = some v) :
    dget (create_session now dur_minutes w r tx st).2.robot_locks k =
      some v := by
  cases hs : dget st.sessions (pyLower w) with
  | none =>
    rw [create_eq_of_no_session r tx hs]
    simp only [dget_dset, if_neg hk]
    exact hkv
  | some old =>
    cases hl : dget st.robot_locks old.robot_host with
    | none =>
      rw [create_eq_of_no_lock r tx hs hl]
      simp only [dget_dset, if_neg hk]
      exact hkv
    | some h =>
      by_cases hh : h = pyLower w
      · rw [hh] at hl
        rw [create_eq_of_lock_mine r tx hs hl]
        simp only [dget_dset, if_neg hk, dget_ddel]
        rw [if_neg]
        · exact hkv
        · intro hko
          rw [hko, hl] at hkv
          exact hv (Option.some.inj hkv).symm
      · rw [create_eq_of_lock_other r tx hs hl hh]
        simp only [dget_dset, if_neg hk]
        exact hkv

/-- The robot lock released by a cleanup is really gone afterwards. -/
theorem cleanup_dget_locks_mine_gone {k : Str} {st : RegState}
    {s0 : SessionData} (hs : dget st.sessions (pyLower k) = some s0)
    (hl : dget st.robot_locks s0.robot_host = some (pyLower k)) :
    dget (cleanup_session k st).robot_locks s0.robot_host = none := by
  rw [cleanup_eq_of_lock_mine hs hl]
  simp [dget_ddel]

theorem get_session_eq_of_absent {now : Int} {w : Str} {st : RegState}
    (hs : dget st.sessions (pyLower w) = none) :
    get_session now w st = (none, st) := by
  unfold get_session
  simp only [hs]

theorem get_session_eq_of_expired {now : Int} {w : Str} {st : RegState}
    {s : SessionData} (hs : dget st.sessions (pyLower w) = some s)
    (he : now > s.expires_at) :
    get_session now w st = (none, cleanup_session (pyLower w) st) := by
  unfold get_session
  simp only [hs, if_pos he]

theorem get_session_eq_of_live {now : Int} {w : Str} {st : RegState}
    {s : SessionData} (hs : dget st.sessions (pyLower w) = some s)
    (he : ¬now > s.expires_at) :
    get_session now w st = (some s, st) := by
  unfold get_session
  simp only [hs, if_neg he]

/-- Characterization of a `some` result of `get_session`: the stored session
is unexpired and the state is untouched. -/
theorem get_session_some_elim {now : Int} {w : Str} {st : RegState}
    {s : SessionData} (h : (get_session now w st).1 = some s) :
    dget st.sessions (pyLower w) = some s ∧ ¬now > s.expires_at ∧
      (get_session now w st).2 = st := by
  cases hs : dget st.sessions (pyLower w) with
  | none => simp [get_session_eq_of_absent hs] at h
  | some s0 =>
    by_cases he : now > s0.expires_at
    · simp [get_session_eq_of_expired hs he] at h
    · rw [get_session_eq_of_live hs he] at h
      have hss : s0 = s := Option.some.inj h
      subst hss
      exact ⟨rfl, he, by rw [get_session_eq_of_live hs he]⟩

/-- Characterization of a `none` result of `get_session`: either no stored
session (no state change) or an expired one (cleaned up). -/
theorem get_session_none_elim {now : Int} {w : Str} {st : RegState}
    (h : (get_session now w st).1 = none) :
    (dget st.sessions (pyLower w) = none ∧ (get_session now w st).2 = st) ∨
      (∃ s, dget st.sessions (pyLower w) = some s ∧ now > s.expires_at ∧
        (get_session now w st).2 = cleanup_session (pyLower w) st) := by
  cases hs : dget st.sessions (pyLower w) with
  | none => exact Or.inl ⟨rfl, by rw [get_session_eq_of_absent hs]⟩
  | some s0 =>
    by_cases he : now > s0.expires_at
    · exact Or.inr ⟨s0, rfl, he, by rw [get_session_eq_of_expired hs he]⟩
    · simp [get_session_eq_of_live hs he] at h

theorem avail_eq_of_no_lock {now : Int} {r : Str} {st : RegState}
    (hl : dget st.robot_locks (pyLower r) = none) :
    is_robot_available now r st = (true, st) := by
  unfold is_robot_available
  simp only [hl]

theorem avail_eq_of_dead_holder {now : Int} {r h : Str} {st st1 : RegState}
    (hl : dget st.robot_locks (pyLower r) = some h)
    (hg : get_session now h st = (none, st1)) :
    is_robot_available now r st = (true, st1) := by
  unfold is_robot_available
  simp only [hl, hg]

theorem avail_eq_of_live_holder {now : Int} {r h : Str} {s : SessionData}
    {st st1 : RegState} (hl : dget st.robot_locks (pyLower r) = some h)
    (hg : get_session now h st = (some s, st1)) :
    is_robot_available now r st = (false, st1) := by
  unfold is_robot_available
  simp only [hl, hg]

theorem holder_eq_of_no_lock {now : Int} {r : Str} {st : RegState}
    (hl : dget st.robot_locks (pyLower r) = none) :
    get_robot_lock_holder now r st = (none, st) := by
  unfold get_robot_lock_holder
  simp only [hl]

theorem holder_eq_of_dead_holder {now : Int} {r h : Str} {st st1 : RegState}
    (hl : dget st.robot_locks (pyLower r) = some h)
    (hg : get_session now h st = (none, st1)) :
    get_robot_lock_holder now r st = (none, st1) := by
  unfold get_robot_lock_holder
  simp only [hl, hg]

theorem holder_eq_of_live_holder {now : Int} {r h : Str} {s : SessionData}
    {st st1 : RegState} (hl : dget st.robot_locks (pyLower r) = some h)
    (hg : get_session now h st = (some s, st1)) :
    get_robot_lock_holder now r st = (some h, st1) := by
  unfold get_robot_lock_holder
  simp only [hl, hg]

theorem cleanup_locksConsistent (k : Str) {st : RegState}
    (hA : LocksConsistent st) : LocksConsistent (cleanup_session k st) := by
  intro r w hrw
  have hrw0 := cleanup_dget_locks_subset hrw
  obtain ⟨s, hws, hsr⟩ := hA r w hrw0
  refine ⟨s, ?_, hsr⟩
  rw [cleanup_dget_sessions]
  by_cases hw : w = pyLower k
  · exfalso
    subst hw
    have hl : dget st.robot_locks s.robot_host = some (pyLower k) := by
      rw [hsr]; exact hrw0
    have hgone := cleanup_dget_locks_mine_gone hws hl
    rw [hsr] at hgone
    rw [hgone] at hrw
    cases hrw
  · rw [if_neg hw]
    exact hws

theorem cleanup_sessionsLocked (k : Str) {st : RegState}
    (hB : SessionsLocked st) : SessionsLocked (cleanup_session k st) := by
  intro w s hws
  rw [cleanup_dget_sessions] at hws
  by_cases hw : w = pyLower k
  · rw [if_pos hw] at hws; cases hws
  · rw [if_neg hw] at hws
    exact cleanup_dget_locks_other (hB w s hws) hw

theorem cleanup_locksNormalized (k : Str) {st : RegState}
    (hN : LocksNormalized st) : LocksNormalized (cleanup_session k st) :=
  fun r w hrw => hN r w (cleanup_dget_locks_subset hrw)

theorem create_locksConsistent (now dur_minutes : Int) (w r : Str)
    (tx : Option Str) {st : RegState} (hA : LocksConsistent st) :
    LocksConsistent (create_session now dur_minutes w r tx st).2 := by
  intro r' w' hrw'
  by_cases hr : r' = pyLower r
  · subst hr
    rw [create_dget_locks_new] at hrw'
    have hww : w' = pyLower w := (Option.some.inj hrw').symm
    subst hww
    refine ⟨newSession now dur_minutes w r tx, ?_, rfl⟩
    rw [create_dget_sessions, if_pos rfl]
  · have hrw0 := create_dget_locks_subset hr hrw'
    obtain ⟨s, hws, hsr⟩ := hA r' w' hrw0
    by_cases hw : w' = pyLower w
    · exfalso
      subst hw
      have hl : dget st.robot_locks s.robot_host = some (pyLower w) := by
        rw [hsr]; exact hrw0
      rw [create_eq_of_lock_mine r tx hws hl] at hrw'
      simp only [dget_dset, dget_ddel] at hrw'
      rw [if_neg hr, if_pos hsr.symm] at hrw'
      cases hrw'
    · refine ⟨s, ?_, hsr⟩
      rw [create_dget_sessions, if_neg hw]
      exact hws

theorem create_locksNormalized (now dur_minutes : Int) (w r : Str)
    (tx : Option Str) {st : RegState} (hN : LocksNormalized st) :
    LocksNormalized (create_session now dur_minutes w r tx st).2 := by
  intro r' w' hrw'
  by_cases hr : r' = pyLower r
  · subst hr
    rw [create_dget_locks_new] at hrw'
    have hww : w' = pyLower w := (Option.some.inj hrw').symm
    subst hww
    exact pyLower_pyLower w
  · exact hN r' w' (create_dget_locks_subset hr hrw')

/-- When the target robot has no lock at all, `create_session` preserves the
session-to-lock direction of the bijection. -/
theorem create_sessionsLocked_of_free (now dur_minutes : Int) (w r : Str)
    (tx : Option Str) {st : RegState} (hB : SessionsLocked st)
    (hfree : dget st.robot_locks (pyLower r) = none) :
    SessionsLocked (create_session now dur_minutes w r tx st).2 := by
  intro w' s' hws'
  rw [create_dget_sessions] at hws'
  by_cases hw : w' = pyLower w
  · rw [if_pos hw] at hws'
    have hss : s' = newSession now dur_minutes w r tx :=
      (Option.some.inj hws').symm
    subst hss
    rw [hw]
    exact create_dget_locks_new now dur_minutes w r tx st
  · rw [if_neg hw] at hws'
    have hlock := hB w' s' hws'
    have hr : s'.robot_host ≠ pyLower r := by
      intro hh
      rw [hh, hfree] at hlock
      cases hlock
    exact create_dget_locks_keep hr hw hlock

theorem cleanup_goodState (k : Str) {st : RegState} (hG : GoodState st) :
    GoodState (cleanup_session k st) :=
  ⟨cleanup_locksConsistent k hG.1, cleanup_sessionsLocked k hG.2.1,
    cleanup_locksNormalized k hG.2.2⟩

theorem readPost_goodState {st st' : RegState} (hp : ReadPost st st')
    (hG : GoodState st) : GoodState st' := by
  cases hp with
  | inl h => rwa [h]
  | inr h => obtain ⟨k, hk⟩ := h; rw [hk]; exact cleanup_goodState k hG

theorem readPost_locksConsistent {st st' : RegState} (hp : ReadPost st st')
    (hA : LocksConsistent st) : LocksConsistent st' := by
  cases hp with
  | inl h => rwa [h]
  | inr h => obtain ⟨k, hk⟩ := h; rw [hk]; exact cleanup_locksConsistent k hA

/-- After a successful availability check the state is still good and the
requested robot really has no lock left (any expired holder was cleaned). -/
theorem avail_true_state {now : Int} {r : Str} {st : RegState}
    (hG : GoodState st) (ha : (is_robot_available now r st).1 = true) :
    GoodState (is_robot_available now r st).2 ∧
      dget (is_robot_available now r st).2.robot_locks (pyLower r) = none := by
  obtain ⟨hA, hB, hN⟩ := hG
  cases hl : dget st.robot_locks (pyLower r) with
  | none =>
    rw [avail_eq_of_no_lock hl]
    exact ⟨⟨hA, hB, hN⟩, hl⟩
  | some holder =>
    cases hg1 : (get_session now holder st).1 with
    | some s =>
      obtain ⟨hws, he, _⟩ := get_session_some_elim hg1
      have hg : get_session now holder st = (some s, st) :=
        get_session_eq_of_live hws he
      rw [avail_eq_of_live_holder hl hg] at ha
      cases ha
    | none =>
      have hnorm : pyLower holder = holder := hN (pyLower r) holder hl
      obtain ⟨s0, hws0, hsr0⟩ := hA (pyLower r) holder hl
      rcases get_session_none_elim hg1 with ⟨habs, _⟩ | ⟨s, hws, he, h2⟩
      · rw [hnorm, hws0] at habs
        cases habs
      · rw [hnorm, hws0] at hws
        have hss : s0 = s := Option.some.inj hws
        subst hss
        have hg : get_session now holder st =
            (none, cleanup_session (pyLower holder) st) :=
          get_session_eq_of_expired (by rwa [hnorm]) he
        rw [avail_eq_of_dead_holder hl hg]
        constructor
        · exact cleanup_goodState _ ⟨hA, hB, hN⟩
        · have hl' : dget st.robot_locks s0.robot_host =
              some (pyLower (pyLower holder)) := by
            rw [hsr0, hl, pyLower_pyLower, hnorm]
          have hgone := cleanup_dget_locks_mine_gone
            (k := pyLower holder) (by rwa [pyLower_pyLower, hnorm]) hl'
          rwa [hsr0] at hgone

theorem purchase_eq_offline (now dur_minutes : Int) (w r : Str)
    (tx : Option Str) (st : RegState) :
    purchase_access false now dur_minutes w r tx st = (.offline, st) := rfl

theorem purchase_eq_busy {now dur_minutes : Int} {w r : Str}
    {tx : Option Str} {st : RegState}
    (hb : (is_robot_available now r st).1 = false) :
    purchase_access true now dur_minutes w r tx st =
      (.busy, (is_robot_available now r st).2) := by
  unfold purchase_access
  simp [hb]

theorem purchase_eq_granted {now dur_minutes : Int} {w r : Str}
    {tx : Option Str} {st : RegState}
    (hb : (is_robot_available now r st).1 = true) :
    purchase_access true now dur_minutes w r tx st =
      (.granted
        (create_session now dur_minutes w r tx
          (is_robot_available now r st).2).1,
        (create_session now dur_minutes w r tx
          (is_robot_available now r st).2).2) := by
  unfold purchase_access
  simp [hb]

theorem purchase_goodState (motor_online : Bool) (now dur_minutes : Int)
    (w r : Str) (tx : Option Str) {st : RegState} (hG : GoodState st) :
    GoodState
      (purchase_access motor_online now dur_minutes w r tx st).2 := by
  cases motor_online with
  | false => rw [purchase_eq_offline]; exact hG
  | true =>
    cases hb : (is_robot_available now r st).1 with
    | false =>
      rw [purchase_eq_busy hb]
      exact readPost_goodState (readPost_is_robot_available now r st) hG
    | true =>
      rw [purchase_eq_granted hb]
      obtain ⟨hG1, hfree⟩ := avail_true_state hG hb
      exact ⟨create_locksConsistent now dur_minutes w r tx hG1.1,
        create_sessionsLocked_of_free now dur_minutes w r tx hG1.2.1 hfree,
        create_locksNormalized now dur_minutes w r tx hG1.2.2⟩

theorem initState_locksConsistent : LocksConsistent initState := by
  intro r w hrw
  cases hrw

theorem initState_goodState : GoodState initState := by
  refine ⟨initState_locksConsistent, ?_, ?_⟩
  · intro w s hws
    cases hws
  · intro r w hrw
    cases hrw

/-- Every raw-reachable state has consistent locks. -/
theorem reachable_locksConsistent {st : RegState} (h : Reachable st) :
    LocksConsistent st := by
  induction h with
  | init => exact initState_locksConsistent
  | create now d w r tx _ ih => exact create_locksConsistent now d w r tx ih
  | cleanup w _ ih => exact cleanup_locksConsistent w ih
  | read_get now w _ ih =>
    exact readPost_locksConsistent (readPost_get_session now w _) ih
  | read_valid now w _ ih =>
    exact readPost_locksConsistent (readPost_has_valid_session now w _) ih
  | read_remaining now w _ ih =>
    exact readPost_locksConsistent (readPost_get_remaining_seconds now w _) ih
  | read_avail now r _ ih =>
    exact readPost_locksConsistent (readPost_is_robot_available now r _) ih
  | read_holder now r _ ih =>
    exact readPost_locksConsistent (readPost_get_robot_lock_holder now r _) ih
  | read_robot now w _ ih =>
    exact readPost_locksConsistent (readPost_get_session_robot now w _) ih

theorem status_locked_by_goodState (now : Int) (r : Str) {st : RegState}
    (hG : GoodState st) : GoodState (status_locked_by now r st).2 := by
  unfold status_locked_by
  have h1 := readPost_goodState (readPost_is_robot_available now r st) hG
  cases hb : (is_robot_available now r st).1 with
  | true => simpa [hb] using h1
  | false =>
    have h2 := readPost_goodState
      (readPost_get_robot_lock_holder now r (is_robot_available now r st).2) h1
    cases hh :
        (get_robot_lock_holder now r (is_robot_available now r st).2).1 with
    | none => simpa [hb, hh] using h2
    | some holder =>
      by_cases he : holder = []
      · simpa [hb, hh, he] using h2
      · simpa [hb, hh, he] using h2

theorem check_access_goodState (pe : Bool) (now : Int) (w : Option Str)
    {st : RegState} (hG : GoodState st) :
    GoodState (check_access pe now w st).2 := by
  cases w with
  | none => exact hG
  | some w =>
    unfold check_access
    have h1 := readPost_goodState (readPost_get_session now w st) hG
    have h2 := readPost_goodState
      (readPost_get_remaining_seconds now w (get_session now w st).2) h1
    by_cases hw : w = []
    · simpa [hw] using hG
    · cases hg : get_session now w st with
      | mk a st1 =>
        rw [hg] at h1 h2
        cases a with
        | none =>
          cases pe
          · simpa [hw, hg] using h1
          · simpa [hw, hg] using h1
        | some s =>
          cases pe
          · simpa [hw, hg] using h2
          · simpa [hw, hg] using h2

/-- Every state reachable through the guarded claim flow is good: the two
maps are mutually inverse. -/
theorem reachableP_goodState {st : RegState} (h : ReachableP st) :
    GoodState st := by
  induction h with
  | init => exact initState_goodState
  | purchase mo now d w r tx _ ih => exact purchase_goodState mo now d w r tx ih
  | cleanup w _ ih => exact cleanup_goodState w ih
  | read_get now w _ ih =>
    exact readPost_goodState (readPost_get_session now w _) ih
  | read_valid now w _ ih =>
    exact readPost_goodState (readPost_has_valid_session now w _) ih
  | read_remaining now w _ ih =>
    exact readPost_goodState (readPost_get_remaining_seconds now w _) ih
  | read_avail now r _ ih =>
    exact readPost_goodState (readPost_is_robot_available now r _) ih
  | read_holder now r _ ih =>
    exact readPost_goodState (readPost_get_robot_lock_holder now r _) ih
  | read_robot now w _ ih =>
    exact readPost_goodState (readPost_get_session_robot now w _) ih
  | read_status now r _ ih => exact status_locked_by_goodState now r ih
  | read_access pe now w _ ih => exact check_access_goodState pe now w ih

/-- Claim C5: release (`_cleanup_session`) is idempotent: on a wallet with no
session entry it is a no-op that leaves both mappings unchanged, and calling
it twice in a row yields the same state as calling it once. -/
theorem release_idempotent (w : Str) (st : RegState) :
    (dget st.sessions (pyLower w) = none → cleanup_session w st = st) ∧
      cleanup_session w (cleanup_session w st) = cleanup_session w st := by
  constructor
  · exact fun hs => cleanup_eq_of_no_session hs
  · apply cleanup_eq_of_no_session
    rw [cleanup_dget_sessions, if_pos rfl]

theorem release_idempotent_witness :
    dget initState.sessions (pyLower ['a']) = none ∧
      cleanup_session ['a'] initState = initState ∧
      cleanup_session ['a'] (cleanup_session ['a'] initState) =
        cleanup_session ['a'] initState :=
  ⟨rfl, (release_idempotent ['a'] initState).1 rfl,
    (release_idempotent ['a'] initState).2⟩

/-- Claim C6: `get_remaining_seconds` returns `max 0 (expires_at - now)` in whole
seconds when the wallet has an active session and `0` when it has none. -/
theorem remaining_seconds_spec (now : Int) (w : Str) (st : RegState) :
    (∀ s, (get_session now w st).1 = some s →
      (get_remaining_seconds now w st).1 = max 0 (s.expires_at - now)) ∧
      ((get_session now w st).1 = none →
        (get_remaining_seconds now w st).1 = 0) := by
  unfold get_remaining_seconds
  cases hg : get_session now w st with
  | mk a st1 =>
    cases a with
    | none =>
      constructor
      · intro s hs
        simp at hs
      · intro _
        rfl
    | some s0 =>
      constructor
      · intro s hs
        have hss : s0 = s := Option.some.inj hs
        subst hss
        rfl
      · intro hn
        simp at hn

theorem remaining_seconds_witness :
    ((get_session 5 ['a'] stA).1 = some (newSession 0 10 ['a'] ['r'] none) ∧
      (get_remaining_seconds 5 ['a'] stA).1 =
        max 0 ((newSession 0 10 ['a'] ['r'] none).expires_at - 5)) ∧
      ((get_session 0 ['c'] initState).1 = none ∧
        (get_remaining_seconds 0 ['c'] initState).1 = 0) :=
  ⟨⟨by decide,
    (remaining_seconds_spec 5 ['a'] stA).1
      (newSession 0 10 ['a'] ['r'] none) (by decide)⟩,
    ⟨by decide, (remaining_seconds_spec 0 ['c'] initState).2 (by decide)⟩⟩

/-- Claim C7: masking. A holder identifier of more than 10 characters is reduced
by `_mask_wallet` to its 6-character prefix and 4-character suffix joined by
an ellipsis — 13 characters in total, never more than the visible
prefix+suffix budget (10) plus the separator (3) — while identifiers of at
most 10 characters are returned unmasked. -/
theorem mask_wallet_spec (w : Str) :
    (w.length ≤ 10 → mask_wallet w = w) ∧
      (10 < w.length →
        mask_wallet w =
          w.take 6 ++ "...".toList ++ w.drop (w.length - 4) ∧
          (mask_wallet w).length = 13) := by
  constructor
  · intro h
    unfold mask_wallet
    rw [if_pos h]
  · intro h
    unfold mask_wallet
    rw [if_neg (by omega)]
    refine ⟨rfl, ?_⟩
    have h3 : ("...".toList : Str).length = 3 := rfl
    simp only [List.length_append, List.length_take, List.length_drop, h3]
    omega

theorem mask_wallet_witness :
    (mask_wallet ['a', 'b'] = ['a', 'b']) ∧
      mask_wallet ['0', 'x', 'a', 'b', 'c', 'd', '5', '6', '7', '8', '9', '0'] =
        (['0', 'x', 'a', 'b', 'c', 'd', '5', '6', '7', '8', '9', '0'] :
          Str).take 6 ++ "...".toList ++
          (['0', 'x', 'a', 'b', 'c', 'd', '5', '6', '7', '8', '9', '0'] :
            Str).drop 8 ∧
      (mask_wallet
        ['0', 'x', 'a', 'b', 'c', 'd', '5', '6', '7', '8', '9', '0']).length =
        13 :=
  ⟨(mask_wallet_spec ['a', 'b']).1 (by decide),
    ((mask_wallet_spec
      ['0', 'x', 'a', 'b', 'c', 'd', '5', '6', '7', '8', '9', '0']).2
      (by decide)).1,
    ((mask_wallet_spec
      ['0', 'x', 'a', 'b', 'c', 'd', '5', '6', '7', '8', '9', '0']).2
      (by decide)).2⟩

/-- Claim C10: release touches only the given wallet's entries: `_cleanup_session`
leaves every other wallet's session entry unchanged, leaves every lock held
by a different wallet unchanged, and changes a lock entry only if that lock
named the given (normalized) wallet as holder. -/
theorem release_frame (w : Str) (st : RegState) :
    (∀ v, v ≠ pyLower w →
      dget (cleanup_session w st).sessions v = dget st.sessions v) ∧
      (∀ r h, dget st.robot_locks r = some h → h ≠ pyLower w →
        dget (cleanup_session w st).robot_locks r = some h) ∧
      (∀ r, dget (cleanup_session w st).robot_locks r ≠
          dget st.robot_locks r →
        dget st.robot_locks r = some (pyLower w)) := by
  refine ⟨?_, ?_, ?_⟩
  · intro v hv
    rw [cleanup_dget_sessions, if_neg hv]
  · intro r h hrh hhw
    exact cleanup_dget_locks_other hrh hhw
  · intro r hne
    cases hs : dget st.sessions (pyLower w) with
    | none =>
      exact absurd (by rw [cleanup_eq_of_no_session hs]) hne
    | some s0 =>
      cases hl : dget st.robot_locks s0.robot_host with
      | none =>
        exact absurd (by rw [cleanup_eq_of_no_lock hs hl]) hne
      | some h =>
        by_cases hh : h = pyLower w
        · subst hh
          rw [cleanup_eq_of_lock_mine hs hl] at hne
          simp only [dget_ddel] at hne
          by_cases hr : r = s0.robot_host
          · rw [hr]
            exact hl
          · rw [if_neg hr] at hne
            exact absurd rfl hne
        · exact absurd (by rw [cleanup_eq_of_lock_other hs hl hh]) hne

theorem release_frame_witness :
    ((['a'] : Str) ≠ pyLower ['b'] ∧
      dget (cleanup_session ['b'] stA).sessions ['a'] =
        dget stA.sessions ['a']) ∧
      (dget stA.robot_locks ['r'] = some ['a'] ∧ (['a'] : Str) ≠ pyLower ['b'] ∧
        dget (cleanup_session ['b'] stA).robot_locks ['r'] = some ['a']) ∧
      (dget (cleanup_session ['a'] stA).robot_locks ['r'] ≠
          dget stA.robot_locks ['r'] ∧
        dget stA.robot_locks ['r'] = some (pyLower ['a'])) :=
  ⟨⟨by decide, (release_frame ['b'] stA).1 ['a'] (by decide)⟩,
    ⟨by decide, by decide,
      (release_frame ['b'] stA).2.1 ['r'] ['a'] (by decide) (by decide)⟩,
    ⟨by decide, (release_frame ['a'] stA).2.2 ['r'] (by decide)⟩⟩

/-- Claim C1: when the requested robot already has a different holder with an
active (unexpired) session, the claim operation (`purchase_access`, i.e. the
availability check in front of `create_session`) is rejected as busy (HTTP
409, the `ResourceBusy` condition) and neither the session map nor the
robot-lock map is mutated. -/
theorem claim_rejected_when_busy (now dur_minutes : Int) (w r holder : Str)
    (tx : Option Str) (st : RegState) (s : SessionData)
    (hl : dget st.robot_locks (pyLower r) = some holder)
    (_hdiff : holder ≠ pyLower w)
    (hs : (get_session now holder st).1 = some s) :
    purchase_access true now dur_minutes w r tx st = (.busy, st) := by
  obtain ⟨hws, he, _⟩ := get_session_some_elim hs
  have hg : get_session now holder st = (some s, st) :=
    get_session_eq_of_live hws he
  have hb : is_robot_available now r st = (false, st) :=
    avail_eq_of_live_holder hl hg
  rw [purchase_eq_busy (by rw [hb])]
  rw [hb]

theorem claim_rejected_witness :
    dget stA.robot_locks (pyLower ['r']) = some ['a'] ∧
      (['a'] : Str) ≠ pyLower ['b'] ∧
      (get_session 0 ['a'] stA).1 = some (newSession 0 10 ['a'] ['r'] none) ∧
      purchase_access true 0 10 ['b'] ['r'] none stA = (.busy, stA) :=
  ⟨by decide, by decide, by decide,
    claim_rejected_when_busy 0 10 ['b'] ['r'] ['a'] none stA
      (newSession 0 10 ['a'] ['r'] none) (by decide) (by decide) (by decide)⟩

/-- Claim C3, counterexample: the claim says a lease is active iff
`now < expires_at` and that absence is reported once `now ≥ expires_at`, but
`get_session` tests `now > expires_at`, so at `now = expires_at` exactly
(the session of `stA` expires at 600) the lease is still reported present. -/
theorem expiry_boundary_counterexample :
    (600 : Int) ≥ (newSession 0 10 ['a'] ['r'] none).expires_at ∧
      (get_session 600 ['a'] stA).1 =
        some (newSession 0 10 ['a'] ['r'] none) :=
  ⟨by decide, by decide⟩

/-- Claim C3, amended: a lease is treated as active iff `now ≤ expires_at`
(strict inequality `now > expires_at` is the expiry test); once
`now > expires_at`, `get_session` and `get_robot_lock_holder` report absence
at every later instant, and the first such `get_session` removes the
session entry so subsequent calls find nothing. -/
theorem expiry_semantics (now nowLater : Int) (w r holder : Str)
    (st : RegState) (s : SessionData) :
    ((get_session now w st).1 = some s ↔
      dget st.sessions (pyLower w) = some s ∧ ¬now > s.expires_at) ∧
      (dget st.sessions (pyLower w) = some s → now > s.expires_at →
        nowLater ≥ now →
        (get_session nowLater w st).1 = none ∧
          dget (get_session nowLater w st).2.sessions (pyLower w) = none) ∧
      (dget st.robot_locks (pyLower r) = some holder →
        dget st.sessions (pyLower holder) = some s → now > s.expires_at →
        nowLater ≥ now → (get_robot_lock_holder nowLater r st).1 = none) := by
  refine ⟨⟨?_, ?_⟩, ?_, ?_⟩
  · intro h
    obtain ⟨h1, h2, _⟩ := get_session_some_elim h
    exact ⟨h1, h2⟩
  · rintro ⟨h1, h2⟩
    rw [get_session_eq_of_live h1 h2]
  · intro h1 h2 h3
    have hlate : nowLater > s.expires_at := by omega
    rw [get_session_eq_of_expired h1 hlate]
    exact ⟨rfl, by rw [cleanup_dget_sessions, pyLower_pyLower, if_pos rfl]⟩
  · intro hl h1 h2 h3
    have hlate : nowLater > s.expires_at := by omega
    have hg : get_session nowLater holder st =
        (none, cleanup_session (pyLower holder) st) :=
      get_session_eq_of_expired h1 hlate
    rw [holder_eq_of_dead_holder hl hg]

theorem expiry_semantics_witness :
    ((get_session 5 ['a'] stA).1 = some (newSession 0 10 ['a'] ['r'] none) ∧
      dget stA.sessions (pyLower ['a']) =
        some (newSession 0 10 ['a'] ['r'] none) ∧
      ¬(5 : Int) > (newSession 0 10 ['a'] ['r'] none).expires_at) ∧
      ((get_session 999 ['a'] stA).1 = none ∧
        dget (get_session 999 ['a'] stA).2.sessions (pyLower ['a']) = none) ∧
      (get_robot_lock_holder 999 ['r'] stA).1 = none :=
  ⟨(expiry_semantics 5 5 ['a'] ['r'] ['a'] stA
      (newSession 0 10 ['a'] ['r'] none)).1.mpr ⟨by decide, by decide⟩ ▸
      ⟨by decide, by decide, by decide⟩,
    (expiry_semantics 601 999 ['a'] ['r'] ['a'] stA
      (newSession 0 10 ['a'] ['r'] none)).2.1 (by decide) (by decide)
      (by decide),
    (expiry_semantics 601 999 ['a'] ['r'] ['a'] stA
      (newSession 0 10 ['a'] ['r'] none)).2.2 (by decide) (by decide)
      (by decide) (by decide)⟩

/-- Claim C4: a client holding an active lease on robot `r1` that successfully
claims a different robot `r2` afterwards is bound to `r2`
(`get_session_robot` returns `r2`) and `r1` becomes available again
(`is_robot_available` returns `true`). -/
theorem switch_releases_old (now dur_minutes : Int) (w r1 r2 : Str)
    (tx : Option Str) (st : RegState) (s1 : SessionData)
    (hs1 : dget st.sessions (pyLower w) = some s1)
    (hr1 : s1.robot_host = pyLower r1)
    (hl1 : dget st.robot_locks (pyLower r1) = some (pyLower w))
    (_hactive : ¬now > s1.expires_at)
    (hne : pyLower r2 ≠ pyLower r1)
    (hd : 0 ≤ dur_minutes) :
    (get_session_robot now w
        (create_session now dur_minutes w r2 tx st).2).1 =
      some (pyLower r2) ∧
      (is_robot_available now r1
        (create_session now dur_minutes w r2 tx st).2).1 = true := by
  have hw' : dget (create_session now dur_minutes w r2 tx st).2.sessions
      (pyLower w) = some (newSession now dur_minutes w r2 tx) := by
    rw [create_dget_sessions, if_pos rfl]
  have hlive : ¬now > (newSession now dur_minutes w r2 tx).expires_at := by
    unfold newSession
    simp only
    omega
  constructor
  · unfold get_session_robot
    rw [get_session_eq_of_live hw' hlive]
    rfl
  · have hl1' : dget st.robot_locks s1.robot_host = some (pyLower w) := by
      rw [hr1]
      exact hl1
    have hnone : dget (create_session now dur_minutes w r2 tx st).2.robot_locks
        (pyLower r1) = none := by
      rw [create_eq_of_lock_mine r2 tx hs1 hl1']
      simp only [dget_dset, dget_ddel]
      rw [if_neg hne.symm, if_pos (by rw [hr1])]
    rw [avail_eq_of_no_lock hnone]

theorem switch_releases_old_witness :
    (dget stA.sessions (pyLower ['a']) =
        some (newSession 0 10 ['a'] ['r'] none) ∧
      (newSession 0 10 ['a'] ['r'] none).robot_host = pyLower ['r'] ∧
      dget stA.robot_locks (pyLower ['r']) = some (pyLower ['a']) ∧
      ¬(0 : Int) > (newSession 0 10 ['a'] ['r'] none).expires_at ∧
      pyLower ['q'] ≠ pyLower ['r']) ∧
      (get_session_robot 0 ['a']
          (create_session 0 10 ['a'] ['q'] none stA).2).1 =
        some (pyLower ['q']) ∧
      (is_robot_available 0 ['r']
        (create_session 0 10 ['a'] ['q'] none stA).2).1 = true :=
  ⟨⟨by decide, by decide, by decide, by decide, by decide⟩,
    (switch_releases_old 0 10 ['a'] ['r'] ['q'] none stA
      (newSession 0 10 ['a'] ['r'] none) (by decide) (by decide) (by decide)
      (by decide) (by decide) (by decide)).1,
    (switch_releases_old 0 10 ['a'] ['r'] ['q'] none stA
      (newSession 0 10 ['a'] ['r'] none) (by decide) (by decide) (by decide)
      (by decide) (by decide) (by decide)).2⟩

/-- Claim C8, counterexample: the claim says the status endpoint reports
`remaining_seconds` equal to 0 for a client with no prior claim, but
`check_access` returns `SessionResponse(active=False)` whose
`remaining_seconds` field defaults to `None` (absent), not `0`. -/
theorem status_remaining_counterexample :
    (get_session 0 ['c'] initState).1 = none ∧
      (check_access true 0 (some ['c']) initState).1.remaining_seconds =
        none ∧
      (check_access true 0 (some ['c']) initState).1.remaining_seconds ≠
        some 0 :=
  ⟨by decide, by decide, by decide⟩

/-- Claim C8, amended: for a client with no active session, `check_access`
returns `active = false` with the robot, expiry and remaining-seconds
fields all absent (`None`) — rather than `remaining_seconds = 0`. -/
theorem status_no_session (payment_enabled : Bool) (now : Int) (w : Str)
    (st : RegState) (hg : (get_session now w st).1 = none) :
    (check_access payment_enabled now (some w) st).1 =
      ⟨false, none, none, none⟩ ∧
      (check_access payment_enabled now none st).1 =
        ⟨false, none, none, none⟩ := by
  constructor
  · unfold check_access
    by_cases hw : w = []
    · simp [hw]
    · cases hgp : get_session now w st with
      | mk a st1 =>
        rw [hgp] at hg
        simp only at hg
        subst hg
        cases payment_enabled
        · simp [hw, hgp]
        · simp [hw, hgp]
  · rfl

theorem status_no_session_witness :
    (get_session 0 ['c'] initState).1 = none ∧
      (check_access true 0 (some ['c']) initState).1 =
        ⟨false, none, none, none⟩ :=
  ⟨by decide, (status_no_session true 0 ['c'] initState (by decide)).1⟩

/-- Claim C9: lock-session coherence. In every state reachable by sequences of
`create_session`, `get_session` and `_cleanup_session` (and the other read
operations) from the empty registry, a robot lock binding resource `r` to
wallet `w` whose wallet also has a session entry points at a session bound
to exactly `r`. -/
theorem lock_session_coherence {st : RegState} (hre : Reachable st)
    (r w : Str) (s : SessionData)
    (hl : dget st.robot_locks r = some w)
    (hs : dget st.sessions w = some s) : s.robot_host = r := by
  obtain ⟨s', hws', hsr'⟩ := reachable_locksConsistent hre r w hl
  rw [hws'] at hs
  have hss : s' = s := Option.some.inj hs
  subst hss
  exact hsr'

theorem lock_session_coherence_witness :
    dget stA.robot_locks ['r'] = some ['a'] ∧
      dget stA.sessions ['a'] = some (newSession 0 10 ['a'] ['r'] none) ∧
      (newSession 0 10 ['a'] ['r'] none).robot_host = ['r'] :=
  ⟨by decide, by decide,
    lock_session_coherence
      (Reachable.create 0 10 ['a'] ['r'] none Reachable.init) ['r'] ['a']
      (newSession 0 10 ['a'] ['r'] none) (by decide) (by decide)⟩

/-- Claim C2, counterexample: with the claim operation taken to be the raw registry
`create_session` (as the claim states), the bijection fails: from the empty
registry, `create_session` for wallet `a` on robot `r` followed by
`create_session` for wallet `b` on the same robot `r` (no availability
check) reaches a state in which two distinct wallets both hold unexpired
sessions bound to robot `r` — the resource is held by two active leases. -/
theorem bijection_counterexample :
    Reachable stBad ∧
      dget stBad.sessions ['a'] = some (newSession 0 10 ['a'] ['r'] none) ∧
      dget stBad.sessions ['b'] = some (newSession 0 10 ['b'] ['r'] none) ∧
      (newSession 0 10 ['a'] ['r'] none).robot_host =
        (newSession 0 10 ['b'] ['r'] none).robot_host ∧
      (['a'] : Str) ≠ ['b'] ∧
      (0 : Int) < (newSession 0 10 ['a'] ['r'] none).expires_at ∧
      (0 : Int) < (newSession 0 10 ['b'] ['r'] none).expires_at :=
  ⟨Reachable.create 0 10 ['b'] ['r'] none
      (Reachable.create 0 10 ['a'] ['r'] none Reachable.init),
    by decide, by decide, by decide, by decide, by decide, by decide⟩

/-- Claim C2, amended: when every claim goes through the guarded flow of the API
(`purchase_access`: availability check, then `create_session`), every
reachable state's holder-keyed and resource-keyed maps are mutually inverse
— so each robot is bound by at most one session (active or not) and the two
maps form a bijection; the raw unguarded `create_session` alone does not
guarantee this. -/
theorem guarded_bijection {st : RegState} (hre : ReachableP st) :
    (∀ r w, dget st.robot_locks r = some w ↔
      ∃ s, dget st.sessions w = some s ∧ s.robot_host = r) ∧
      (∀ w1 w2 s1 s2, dget st.sessions w1 = some s1 →
        dget st.sessions w2 = some s2 →
        s1.robot_host = s2.robot_host → w1 = w2) := by
  obtain ⟨hA, hB, _⟩ := reachableP_goodState hre
  constructor
  · intro r w
    constructor
    · exact hA r w
    · rintro ⟨s, hws, hsr⟩
      rw [← hsr]
      exact hB w s hws
  · intro w1 w2 s1 s2 h1 h2 he
    have l1 := hB w1 s1 h1
    have l2 := hB w2 s2 h2
    rw [he, l2] at l1
    exact (Option.some.inj l1).symm

theorem guarded_bijection_witness :
    (dget stP.robot_locks ['r'] = some ['a'] ↔
      ∃ s, dget stP.sessions ['a'] = some s ∧ s.robot_host = ['r']) ∧
      (dget stP.sessions ['a'] = some (newSession 0 10 ['a'] ['r'] none) →
        dget stP.sessions ['a'] = some (newSession 0 10 ['a'] ['r'] none) →
        (newSession 0 10 ['a'] ['r'] none).robot_host =
          (newSession 0 10 ['a'] ['r'] none).robot_host →
        (['a'] : Str) = ['a']) :=
  ⟨(guarded_bijection
      (ReachableP.purchase true 0 10 ['a'] ['r'] none ReachableP.init)).1
      ['r'] ['a'],
    (guarded_bijection
      (ReachableP.purchase true 0 10 ['a'] ['r'] none ReachableP.init)).2
      ['a'] ['a'] (newSession 0 10 ['a'] ['r'] none)
      (newSession 0 10 ['a'] ['r'] none)⟩

end Tumbller
